import Mathlib

/-!
Verification development for the kaf-musicanalysis audio feature pipeline.

The TypeScript sources are embedded shallowly:
* JS `number` values that stay finite are modelled as exact rationals (`ℚ`);
  where the source can produce `NaN` or infinities (the rhythm analyzer's
  divisions by an empty-frame mean), the `JSNum` type models IEEE special
  values explicitly, with exact rational arithmetic on the finite fragment.
* `Math.sqrt` on finite non-negative arguments is kept abstract as an `rsqrt`
  parameter (its value is irrational in general); theorems assume only that
  it maps non-negative inputs to non-negative outputs.
* The FFT of `fft.js` is kept abstract as a `transform` parameter: every
  property proved about the spectral analyzer holds for an arbitrary
  transform output, hence in particular for the real FFT.
* External fallible calls (metadata parsing, WAV decoding, the LLM call)
  are modelled by `Except` / `Option` arguments describing their outcome.
* JS strings are modelled as Lean `String` / `List Char`, with the JS
  operations (`includes`, `trim`, `startsWith`, `substring`, the trailing
  code-fence regex) implemented on the character list.
-/

namespace MusicAnalysis

/-- JS `Math.round`: round half toward positive infinity. -/
def jround (q : ℚ) : ℤ := ⌊q + 1/2⌋

/-- JS `number` semantics: finite values as exact rationals, plus `NaN` and
the two infinities (signed zero is not distinguished). -/
inductive JSNum where
  | nan : JSNum
  | inf : JSNum
  | ninf : JSNum
  | fin : ℚ → JSNum
deriving DecidableEq, Repr

/-- JS addition. -/
def jadd : JSNum → JSNum → JSNum
  | .nan, _ => .nan
  | _, .nan => .nan
  | .inf, .ninf => .nan
  | .ninf, .inf => .nan
  | .inf, _ => .inf
  | _, .inf => .inf
  | .ninf, _ => .ninf
  | _, .ninf => .ninf
  | .fin a, .fin b => .fin (a + b)

/-- JS negation. -/
def jneg : JSNum → JSNum
  | .nan => .nan
  | .inf => .ninf
  | .ninf => .inf
  | .fin a => .fin (-a)

/-- JS subtraction. -/
def jsub (a b : JSNum) : JSNum := jadd a (jneg b)

/-- JS multiplication. -/
def jmul : JSNum → JSNum → JSNum
  | .nan, _ => .nan
  | _, .nan => .nan
  | .inf, .inf => .inf
  | .inf, .ninf => .ninf
  | .ninf, .inf => .ninf
  | .ninf, .ninf => .inf
  | .inf, .fin b => if b = 0 then .nan else if 0 < b then .inf else .ninf
  | .fin a, .inf => if a = 0 then .nan else if 0 < a then .inf else .ninf
  | .ninf, .fin b => if b = 0 then .nan else if 0 < b then .ninf else .inf
  | .fin a, .ninf => if a = 0 then .nan else if 0 < a then .ninf else .inf
  | .fin a, .fin b => .fin (a * b)

/-- JS division (signed zero ignored: division of a nonzero finite value by
zero picks the sign from the numerator). -/
def jdiv : JSNum → JSNum → JSNum
  | .nan, _ => .nan
  | _, .nan => .nan
  | .inf, .inf => .nan
  | .inf, .ninf => .nan
  | .ninf, .inf => .nan
  | .ninf, .ninf => .nan
  | .inf, .fin b => if 0 ≤ b then .inf else .ninf
  | .ninf, .fin b => if 0 ≤ b then .ninf else .inf
  | .fin _, .inf => .fin 0
  | .fin _, .ninf => .fin 0
  | .fin a, .fin b =>
      if b = 0 then (if a = 0 then .nan else if 0 < a then .inf else .ninf)
      else .fin (a / b)

/-- JS `Math.max` on two arguments (`NaN` absorbs). -/
def jmax : JSNum → JSNum → JSNum
  | .nan, _ => .nan
  | _, .nan => .nan
  | .inf, _ => .inf
  | _, .inf => .inf
  | .ninf, b => b
  | a, .ninf => a
  | .fin a, .fin b => .fin (max a b)

/-- JS `Math.min` on two arguments (`NaN` absorbs). -/
def jmin : JSNum → JSNum → JSNum
  | .nan, _ => .nan
  | _, .nan => .nan
  | .ninf, _ => .ninf
  | _, .ninf => .ninf
  | .inf, b => b
  | a, .inf => a
  | .fin a, .fin b => .fin (min a b)

/-- JS `<` (comparisons with `NaN` are false). -/
def jlt : JSNum → JSNum → Bool
  | .nan, _ => false
  | _, .nan => false
  | .ninf, .ninf => false
  | .ninf, _ => true
  | _, .ninf => false
  | .inf, _ => false
  | _, .inf => true
  | .fin a, .fin b => a < b

/-- JS `>`. -/
def jgt (a b : JSNum) : Bool := jlt b a

/-- JS `Math.sqrt`, abstracting the finite non-negative case by `rsqrt`. -/
def jsqrt (rsqrt : ℚ → ℚ) : JSNum → JSNum
  | .nan => .nan
  | .inf => .inf
  | .ninf => .nan
  | .fin q => if q < 0 then .nan else .fin (rsqrt q)

/-- JS numeric falsiness: `0` and `NaN` are falsy. -/
def jfalsy : JSNum → Bool
  | .nan => true
  | .fin q => q == 0
  | _ => false

/-- JS `x || y` on numbers. -/
def jsOr (x y : JSNum) : JSNum := if jfalsy x then y else x

/-! ## JS string operations, modelled on `List Char` -/

/-- Is `pat` a prefix of `s`? -/
def charsPre : List Char → List Char → Bool
  | [], _ => true
  | _ :: _, [] => false
  | a :: as, b :: bs => a == b && charsPre as bs

/-- Does `pat` occur as a contiguous substring of `s`? (JS `String.includes`) -/
def charsHas (pat : List Char) : List Char → Bool
  | [] => charsPre pat []
  | c :: rest => charsPre pat (c :: rest) || charsHas pat rest

/-- JS `String.includes`. -/
def strHas (s pat : String) : Bool := charsHas pat.data s.data

/-- JS `String.toLowerCase` (ASCII fragment). -/
def strLower (s : String) : String := ⟨s.data.map Char.toLower⟩

/-- Whitespace stripped by JS `String.trim`. -/
def jsWs (c : Char) : Bool := c == ' ' || c == '\t' || c == '\n' || c == '\r'

/-- JS `String.trim` on a character list. -/
def trimChars (l : List Char) : List Char :=
  ((l.dropWhile jsWs).reverse.dropWhile jsWs).reverse

/-! ## Spectral analyzer (`advancedAudioAnalysis.ts`, `analyzeSpectrum`) -/

/-- Output record of `analyzeSpectrum` (centroid and spread are
`Math.round`ed to integers by the source). -/
structure SpectrumOut where
  centroid : ℤ
  spread : ℤ
  bass : ℚ
  mid : ℚ
  treble : ℚ
deriving DecidableEq, Repr

/-- The 2048-sample analysis window taken from the start of the signal;
missing entries read as `0` (`chunk[i] || 0`). -/
def chunkOf (samples : List ℚ) : List ℚ :=
  (List.range 2048).map (fun i => samples.getD i 0)

/-- Magnitude of FFT bin `i`: `sqrt(re² + im²)` of the transform output,
out-of-range bins reading as zero. -/
def magOf (transform : List ℚ → List (ℚ × ℚ)) (rsqrt : ℚ → ℚ)
    (samples : List ℚ) (i : ℕ) : ℚ :=
  let c := (transform (chunkOf samples)).getD i (0, 0)
  rsqrt (c.1 * c.1 + c.2 * c.2)

/-- Center frequency of bin `i`: `i·sampleRate/2048`. -/
def freqOf (sampleRate : ℚ) (i : ℕ) : ℚ := i * sampleRate / 2048

/-- Total magnitude over the first `fftSize/2 = 1024` bins. -/
def totalMagnitudeOf (transform : List ℚ → List (ℚ × ℚ)) (rsqrt : ℚ → ℚ)
    (samples : List ℚ) : ℚ :=
  ((List.range 1024).map (magOf transform rsqrt samples)).sum

/-- Magnitude-weighted frequency sum over the first 1024 bins. -/
def weightedSumOf (transform : List ℚ → List (ℚ × ℚ)) (rsqrt : ℚ → ℚ)
    (samples : List ℚ) (sampleRate : ℚ) : ℚ :=
  ((List.range 1024).map
    (fun i => freqOf sampleRate i * magOf transform rsqrt samples i)).sum

/-- The band-splitting loop of `analyzeSpectrum`: one pass over the bins
accumulating `(bassEnergy, midEnergy, trebleEnergy)` by frequency
(`< 250`, `< 4000`, else). -/
def bandFold (sampleRate : ℚ) (mag : ℕ → ℚ) (l : List ℕ) (acc : ℚ × ℚ × ℚ) :
    ℚ × ℚ × ℚ :=
  l.foldl
    (fun acc i =>
      let f := freqOf sampleRate i
      if f < 250 then (acc.1 + mag i, acc.2.1, acc.2.2)
      else if f < 4000 then (acc.1, acc.2.1 + mag i, acc.2.2)
      else (acc.1, acc.2.1, acc.2.2 + mag i))
    acc

/-- The three band energies of the analysis window. -/
def bandEnergiesOf (transform : List ℚ → List (ℚ × ℚ)) (rsqrt : ℚ → ℚ)
    (samples : List ℚ) (sampleRate : ℚ) : ℚ × ℚ × ℚ :=
  bandFold sampleRate (magOf transform rsqrt samples) (List.range 1024) (0, 0, 0)

/-- `analyzeSpectrum` of `advancedAudioAnalysis.ts` (lines 134–214): spectral
centroid and spread with their zero-total guards, and the three band-energy
shares with the `totalEnergy || 1` divide-by-zero guard. -/
def analyzeSpectrum (transform : List ℚ → List (ℚ × ℚ)) (rsqrt : ℚ → ℚ)
    (samples : List ℚ) (sampleRate : ℚ) : SpectrumOut :=
  let totalMagnitude := totalMagnitudeOf transform rsqrt samples
  let centroid :=
    if 0 < totalMagnitude then weightedSumOf transform rsqrt samples sampleRate / totalMagnitude
    else 2000
  let spreadSum :=
    ((List.range 1024).map
      (fun i => (freqOf sampleRate i - centroid) ^ 2 * magOf transform rsqrt samples i)).sum
  let spread := if 0 < totalMagnitude then rsqrt (spreadSum / totalMagnitude) else 1000
  let bands := bandEnergiesOf transform rsqrt samples sampleRate
  let totalEnergy := if bands.1 + bands.2.1 + bands.2.2 = 0 then 1 else bands.1 + bands.2.1 + bands.2.2
  { centroid := jround centroid
    spread := jround spread
    bass := bands.1 / totalEnergy
    mid := bands.2.1 / totalEnergy
    treble := bands.2.2 / totalEnergy }

/-! ## Genre detection (`musicAnalysisModules.ts`, `GENRE_PROFILES` /
`detectGenre`) -/

structure GenreProfile where
  name : String
  bpmRange : ℚ × ℚ
  energyRange : ℚ × ℚ
  spectralRange : ℚ × ℚ
  characteristics : List String
  keyIndicators : List String
deriving DecidableEq, Repr

def balladProfile : GenreProfile :=
  { name := "Ballad", bpmRange := (60, 90), energyRange := (0.2, 0.5),
    spectralRange := (1000, 2500),
    characteristics := ["Slow tempo", "Emotional", "Vocal-focused", "Warm tone"],
    keyIndicators := ["Piano", "Strings", "Acoustic Guitar"] }

def edmProfile : GenreProfile :=
  { name := "EDM", bpmRange := (120, 150), energyRange := (0.6, 1.0),
    spectralRange := (2000, 8000),
    characteristics := ["Fast tempo", "Energetic", "Synth-heavy", "4/4 beat"],
    keyIndicators := ["Synth", "Kick Drum", "Bass Drop"] }

def rockProfile : GenreProfile :=
  { name := "Rock", bpmRange := (90, 140), energyRange := (0.5, 0.9),
    spectralRange := (1500, 4000),
    characteristics := ["Powerful", "Guitar-driven", "Strong drums", "Distortion"],
    keyIndicators := ["Electric Guitar", "Drums", "Bass"] }

def jazzProfile : GenreProfile :=
  { name := "Jazz", bpmRange := (70, 120), energyRange := (0.3, 0.7),
    spectralRange := (1000, 5000),
    characteristics := ["Improvisational", "Complex harmony", "Swing rhythm", "Sophisticated"],
    keyIndicators := ["Saxophone", "Piano", "Upright Bass"] }

def hiphopProfile : GenreProfile :=
  { name := "Hip-Hop", bpmRange := (70, 110), energyRange := (0.4, 0.8),
    spectralRange := (500, 3000),
    characteristics := ["Rap-focused", "Strong beat", "Sampled", "Rhythmic"],
    keyIndicators := ["Drums", "Bass", "Vocal Rap"] }

def classicalProfile : GenreProfile :=
  { name := "Classical", bpmRange := (40, 180), energyRange := (0.2, 0.8),
    spectralRange := (500, 8000),
    characteristics := ["Orchestral", "Complex structure", "Acoustic", "Formal"],
    keyIndicators := ["Strings", "Woodwinds", "Brass"] }

def popProfile : GenreProfile :=
  { name := "Pop", bpmRange := (90, 120), energyRange := (0.5, 0.8),
    spectralRange := (1500, 4000),
    characteristics := ["Catchy", "Commercial", "Vocal-forward", "Upbeat"],
    keyIndicators := ["Synth", "Drums", "Vocals"] }

/-- The static genre table, in declaration order (`Object.entries` preserves
insertion order for these string keys). -/
def GENRE_PROFILES : List (String × GenreProfile) :=
  [ ("ballad", balladProfile), ("edm", edmProfile), ("rock", rockProfile),
    ("jazz", jazzProfile), ("hiphop", hiphopProfile),
    ("classical", classicalProfile), ("pop", popProfile) ]

/-- Score of one profile: 30 for an inclusive BPM-range hit, 30 for an
inclusive energy-range hit, 40 for an inclusive spectral-range hit. -/
def scoreProfile (p : GenreProfile) (bpm rmsEnergy spectralCentroid : ℚ) : ℕ :=
  (if p.bpmRange.1 ≤ bpm ∧ bpm ≤ p.bpmRange.2 then 30 else 0) +
  (if p.energyRange.1 ≤ rmsEnergy ∧ rmsEnergy ≤ p.energyRange.2 then 30 else 0) +
  (if p.spectralRange.1 ≤ spectralCentroid ∧ spectralCentroid ≤ p.spectralRange.2 then 40 else 0)

/-- The selection loop of `detectGenre`: the running best is replaced only on
a strictly greater score. -/
def detectGenreLoop (bpm e c : ℚ) :
    List (String × GenreProfile) → String × ℕ → String × ℕ
  | [], best => best
  | (k, p) :: rest, best =>
      let s := scoreProfile p bpm e c
      if best.2 < s then detectGenreLoop bpm e c rest (k, s)
      else detectGenreLoop bpm e c rest best

structure GenreOut where
  detectedGenre : String
  genreConfidence : ℚ
  genreCharacteristics : List String
  subgenres : List String
  genreHybridization : String
deriving DecidableEq, Repr

/-- `detectGenre` of `musicAnalysisModules.ts` (lines 478–521): initial best
is `("pop", 0)`; confidence is `min 1 (bestScore/100)`. The final table
lookup `GENRE_PROFILES[bestMatch]` is modelled with `List.lookup` (the loop
only ever stores keys of the table, and the initial `"pop"` is a key). -/
def detectGenre (bpm rmsEnergy spectralCentroid : ℚ) : GenreOut :=
  let best := detectGenreLoop bpm rmsEnergy spectralCentroid GENRE_PROFILES ("pop", 0)
  let profile := (GENRE_PROFILES.lookup best.1).getD
    { name := "", bpmRange := (0, 0), energyRange := (0, 0), spectralRange := (0, 0),
      characteristics := [], keyIndicators := [] }
  { detectedGenre := profile.name
    genreConfidence := min 1 ((best.2 : ℚ) / 100)
    genreCharacteristics := profile.characteristics
    subgenres := []
    genreHybridization := "Pure genre" }

/-- Maximum profile score of the table on a given input. -/
def maxScoreOf (bpm e c : ℚ) (l : List (String × GenreProfile)) : ℕ :=
  l.foldr (fun kp acc => max (scoreProfile kp.2 bpm e c) acc) 0

/-- Modelled from the spec: "Highest score wins; ties keep the
first-declared profile in table order" — the first table entry attaining the
maximum score. -/
def specFirstBest (bpm e c : ℚ) : Option (String × GenreProfile) :=
  GENRE_PROFILES.find?
    (fun kp => scoreProfile kp.2 bpm e c = maxScoreOf bpm e c GENRE_PROFILES)

/-! ## Rhythm analyzers

`analyzeRhythm` exists twice: in `advancedAudioAnalysis.ts` (lines 219–266,
producing regularity / drum intensity / percussion label) and in
`musicAnalysisModules.ts` (lines 158–201, producing percussion intensity with
an `|| 0.1` mean guard).  Both are embedded over `JSNum` because their
divisions can produce `NaN` / `-Infinity` when no whole beat frame exists. -/

/-- `Math.round((sampleRate * 60) / bpm)`: samples per beat. -/
def beatFrameSizeOf (sampleRate bpm : ℚ) : ℤ := jround (sampleRate * 60 / bpm)

/-- The per-beat mean absolute amplitudes (`beatEnergies`).  `bfs` is the
beat-frame length in samples; `numBeats = ⌊length / bfs⌋` whole frames are
used (for `bfs = 0` JS would loop forever; `Nat` division makes the frame
count 0, and every theorem below constrains `bfs` away from 0). -/
def beatEnergiesOf (samples : List ℚ) (bfs : ℕ) : List ℚ :=
  (List.range (samples.length / bfs)).map (fun i =>
    let start := i * bfs
    let stop := min (start + bfs) samples.length
    (((samples.drop start).take (stop - start)).map (fun x => |x|)).sum
      / ((stop - start : ℕ) : ℚ))

/-- JS `Math.max(...beatEnergies)`: `-Infinity` on the empty list. -/
def spreadMax (l : List ℚ) : JSNum :=
  l.foldl (fun m e => jmax m (.fin e)) .ninf

structure RhythmOut where
  regularity : JSNum
  drumIntensity : JSNum
  percussionChar : String
deriving DecidableEq, Repr

/-- `analyzeRhythm` of `advancedAudioAnalysis.ts` (lines 219–266).  With no
whole beat frame the mean is `0/0 = NaN` (there is no guard here), the
variance is `0/0 = NaN`, and the drum intensity falls back to `0.5` via the
explicit ternary. -/
def analyzeRhythmAdv (rsqrt : ℚ → ℚ) (samples : List ℚ)
    (sampleRate bpm : ℚ) : RhythmOut :=
  let bfs := (beatFrameSizeOf sampleRate bpm).toNat
  let beatEnergies := beatEnergiesOf samples bfs
  let avgEnergy := jdiv (.fin beatEnergies.sum) (.fin (beatEnergies.length : ℚ))
  let variance := jdiv
    (beatEnergies.foldl
      (fun acc e => jadd acc (jmul (jsub (.fin e) avgEnergy) (jsub (.fin e) avgEnergy)))
      (.fin 0))
    (.fin (beatEnergies.length : ℚ))
  let regularity := jmax (.fin 0) (jsub (.fin 1) (jdiv (jsqrt rsqrt variance) avgEnergy))
  let drumIntensity := jmin (.fin 1)
    (if 0 < beatEnergies.length then jdiv (spreadMax beatEnergies) avgEnergy
     else .fin 0.5)
  let percussionChar :=
    if jgt drumIntensity (.fin 0.8) then "punchy"
    else if jgt drumIntensity (.fin 0.6) then "crisp"
    else if jlt drumIntensity (.fin 0.3) then "muffled"
    else "moderate"
  { regularity := jmin (.fin 1) regularity
    drumIntensity := jmin (.fin 1) drumIntensity
    percussionChar := percussionChar }

structure RhythmModsOut where
  timeSignature : String
  drumCharacteristics : String
  percussionIntensity : JSNum
deriving DecidableEq, Repr

/-- `analyzeRhythm` of `musicAnalysisModules.ts` (lines 158–201).  The mean
carries the `|| 0.1` guard, but `Math.max(...[])` is `-Infinity` with no
frames, so the percussion intensity has no `0.5` fallback. -/
def analyzeRhythmMods (samples : List ℚ) (sampleRate bpm : ℚ) : RhythmModsOut :=
  let bfs := (beatFrameSizeOf sampleRate bpm).toNat
  let beatEnergies := beatEnergiesOf samples bfs
  let timeSignature := if bpm < 80 then "3/4" else "4/4"
  let avgEnergy := jsOr
    (jdiv (.fin beatEnergies.sum) (.fin (beatEnergies.length : ℚ))) (.fin 0.1)
  let maxEnergy := spreadMax beatEnergies
  let percussionIntensity := jmin (.fin 1) (jdiv maxEnergy avgEnergy)
  let drumCharacteristics :=
    if jgt percussionIntensity (.fin 0.8) then "punchy"
    else if jgt percussionIntensity (.fin 0.6) then "crisp"
    else if jlt percussionIntensity (.fin 0.3) then "muffled"
    else "steady"
  { timeSignature := timeSignature
    drumCharacteristics := drumCharacteristics
    percussionIntensity := percussionIntensity }

/-! ## Vocal estimator (`advancedAudioAnalysis.ts`, `analyzeVocals`) -/

structure VocalsOut where
  presence : ℚ
  tone : String
  range : String
deriving DecidableEq, Repr

set_option linter.unusedVariables false in
/-- `analyzeVocals` (lines 271–300): presence is `min 1 (mid·0.8 + 0.2)`;
tone and range are centroid tiers.  (The samples argument is unused by the
source as well.) -/
def analyzeVocals (samples : List ℚ) (spectralCentroid midPresence : ℚ) : VocalsOut :=
  let vocalPresence := midPresence * 0.8 + 0.2
  let tone :=
    if spectralCentroid < 1000 then "warm"
    else if spectralCentroid < 2000 then "balanced"
    else if spectralCentroid < 4000 then "bright"
    else "crisp"
  let range :=
    if spectralCentroid < 1500 then "low"
    else if 3500 < spectralCentroid then "high"
    else "mid"
  { presence := min 1 vocalPresence, tone := tone, range := range }

/-! ## BPM estimation (`analyzeAudio.ts`, `estimateBpm`) -/

/-- The metadata tags consulted by `estimateBpm`. -/
structure CommonTags where
  bpm : Option ℚ
  genre : Option (List String)
deriving DecidableEq, Repr

/-- The fallback chain of `estimateBpm` (lines 54–70), evaluated on the
lowercased filename and joined lowercased genre tags. -/
def estimateBpmFallback (genre name : String) (bitrate : ℚ) : ℤ :=
  if strHas name "hip" || strHas name "rap" || strHas name "wiz" then 85
  else if strHas name "ballad" || strHas name "slow" then 72
  else if strHas name "edm" || strHas name "dance" then 128
  else if strHas name "rock" then 130
  else if strHas name "jazz" then 110
  else if strHas genre "hip" || strHas genre "rap" then 85
  else if strHas genre "ballad" || strHas genre "slow" then 72
  else if strHas genre "pop" then 120
  else if strHas genre "rock" then 130
  else if strHas genre "edm" || strHas genre "dance" then 128
  else if strHas genre "jazz" then 110
  else if 256 < bitrate then 120
  else 90

/-- `estimateBpm` (lines 50–71): a truthy tag in the open interval (40,300)
is rounded and used; otherwise the keyword fallback applies. -/
def estimateBpm (common : CommonTags) (bitrate : ℚ) (fileName : Option String) : ℤ :=
  let genre := strLower (String.intercalate " " (common.genre.getD []))
  let name := strLower (fileName.getD "")
  match common.bpm with
  | some b => if 40 < b ∧ b < 300 then jround b else estimateBpmFallback genre name bitrate
  | none => estimateBpmFallback genre name bitrate

/-! ## Decoder (`advancedAudioAnalysis.ts`, `decodeToPCM`) and the stage in
`advancedAnalyzeAudio` that precedes it -/

/-- Result of `wav-decoder`'s `decode`. -/
structure WavDecoded where
  sampleRate : ℚ
  channelData : List (List ℚ)
deriving DecidableEq, Repr

/-- The format fields of `music-metadata`'s parse result used by the decoder
(`sampleRate`/`numberOfChannels` may be absent). -/
structure MetaFormat where
  sampleRate : Option ℕ
  numberOfChannels : Option ℕ
deriving DecidableEq, Repr

structure PCMResult where
  samples : List ℚ
  sampleRate : ℚ
  channels : ℕ
deriving DecidableEq, Repr

/-- JS `x || d` for an optional count (`0` is falsy). -/
def orDefaultNat (x : Option ℕ) (d : ℕ) : ℕ :=
  match x with
  | some v => if v = 0 then d else v
  | none => d

/-- The catch-all result of `decodeToPCM`: 441000 zero samples (10 s) at
44.1 kHz, 2 channels. -/
def fallbackPCM : PCMResult :=
  { samples := List.replicate 441000 0, sampleRate := 44100, channels := 2 }

/-- `decodeToPCM` (lines 73–106).  The whole body sits in one `try`; the
external decoders are modelled by their outcomes (`wavResult` for
`WavDecoder.decode`, `metaResult` for `mm.parseBuffer`).  Any failure is
absorbed into `fallbackPCM`; the function is total. -/
def decodeToPCM (wavResult : Except Unit WavDecoded)
    (metaResult : Except Unit MetaFormat) (mimeType : String) : PCMResult :=
  if strHas mimeType "wav" then
    match wavResult with
    | .ok d =>
        { samples := d.channelData.getD 0 []
          sampleRate := d.sampleRate
          channels := d.channelData.length }
    | .error _ => fallbackPCM
  else
    match metaResult with
    | .ok m =>
        let sampleRate := orDefaultNat m.sampleRate 44100
        { samples := List.replicate (sampleRate * 10) 0
          sampleRate := (sampleRate : ℚ)
          channels := orDefaultNat m.numberOfChannels 2 }
    | .error _ => fallbackPCM

/-- Control-flow embedding of `advancedAnalyzeAudio` (lines 345–361) through
its decode stage: the initial `await mm.parseBuffer(...)` on line 351 is not
guarded by any `try`, so its failure rejects the whole analysis, while
`decodeToPCM` absorbs its own failures.  The later stages are total
functions of the decoded PCM and metadata. -/
def advancedAnalyzeAudioPcm (metaResult : Except String MetaFormat)
    (wavResult : Except Unit WavDecoded) (mimeType : String) :
    Except String PCMResult :=
  match metaResult with
  | .error e => .error e
  | .ok m => .ok (decodeToPCM wavResult (.ok m) mimeType)

/-! ## Orchestrator background task (`routers/music.ts`, `startAnalysis`) -/

/-- Persisted terminal outcome of one background analysis task. -/
structure JobOutcome where
  status : String
  errorMessage : Option String
deriving DecidableEq, Repr

/-- The `try`/`catch` of the detached background task: the stages run
sequentially (upload → analysis → prompt generation) and the first exception
flips the job to `error` with the stringified message; otherwise the final
write sets `done`. -/
def runBackgroundTask (storageResult : Except String Unit)
    (analysisResult : Except String PCMResult)
    (promptResult : PCMResult → Except String Unit) : JobOutcome :=
  match storageResult with
  | .error e => { status := "error", errorMessage := some e }
  | .ok _ =>
    match analysisResult with
    | .error e => { status := "error", errorMessage := some e }
    | .ok r =>
      match promptResult r with
      | .error e => { status := "error", errorMessage := some e }
      | .ok _ => { status := "done", errorMessage := none }

/-! ## LLM prompt-response handling

`generatePromptsWithLLM` exists in three versions: the two unnamed router
variants strip a markdown code fence before `JSON.parse`; the
`routers/music.ts` version (lines 68–69) parses the raw content directly. -/

/-- The three-backtick fence. -/
def fenceChars : List Char := ['`', '`', '`']

/-- The seven characters of a json-tagged opening fence. -/
def jsonFenceChars : List Char := ['`', '`', '`', 'j', 's', 'o', 'n']

/-- The `replace(/```$/, "")` step: remove one trailing fence if present. -/
def replaceTrailingFence (l : List Char) : List Char :=
  if charsPre fenceChars l.reverse then (l.reverse.drop 3).reverse else l

/-- The fence-stripping block of the variant `generatePromptsWithLLM`
implementations: trim, strip a leading ```` ```json ```` (7 chars) or
```` ``` ```` (3 chars) plus one trailing fence, trim again. -/
def cleanLLMContent (content : List Char) : List Char :=
  let c := trimChars content
  let c :=
    if charsPre jsonFenceChars c then replaceTrailingFence (c.drop 7)
    else if charsPre fenceChars c then replaceTrailingFence (c.drop 3)
    else c
  trimChars c

/-! A recursive-descent model of `JSON.parse` validity.  Each parser takes
fuel (decreasing on every call) and the remaining input, returning the
unconsumed remainder on success.  Escape sequences inside strings are
accepted as a backslash followed by any character (the `\u` hex-digit check
is not modelled; none of the inputs below uses escapes). -/

/-- JSON insignificant whitespace. -/
def jsonWs (c : Char) : Bool := c == ' ' || c == '\t' || c == '\n' || c == '\r'

def skipWs (l : List Char) : List Char := l.dropWhile jsonWs

/-- Consume the rest of a JSON string literal (after the opening quote). -/
def eatStringRest : ℕ → List Char → Option (List Char)
  | 0, _ => none
  | _ + 1, [] => none
  | fuel + 1, c :: rest =>
      if c == '"' then some rest
      else if c == '\\' then
        match rest with
        | [] => none
        | _ :: rest2 => eatStringRest fuel rest2
      else eatStringRest fuel rest

/-- Consume one or more decimal digits. -/
def eatDigits1 : List Char → Option (List Char)
  | [] => none
  | c :: rest =>
      if c.isDigit then some ((c :: rest).dropWhile Char.isDigit) else none

/-- Consume a JSON number (sign, integer part, optional fraction and
exponent; leading-zero restrictions are not modelled). -/
def eatNumber (l : List Char) : Option (List Char) := do
  let l := match l with
    | c :: rest => if c == '-' then rest else c :: rest
    | [] => []
  let l ← eatDigits1 l
  let l ← match l with
    | c :: rest => if c == '.' then eatDigits1 rest else some (c :: rest)
    | [] => some []
  match l with
    | c :: rest =>
      if c == 'e' || c == 'E' then
        match rest with
        | d :: rest2 => if d == '+' || d == '-' then eatDigits1 rest2 else eatDigits1 (d :: rest2)
        | [] => none
      else some (c :: rest)
    | [] => some []

mutual

/-- Consume one JSON value. -/
def eatValue : ℕ → List Char → Option (List Char)
  | 0, _ => none
  | fuel + 1, l =>
      match l with
      | [] => none
      | c :: rest =>
          if c == 'n' then if charsPre ['u', 'l', 'l'] rest then some (rest.drop 3) else none
          else if c == 't' then if charsPre ['r', 'u', 'e'] rest then some (rest.drop 3) else none
          else if c == 'f' then if charsPre ['a', 'l', 's', 'e'] rest then some (rest.drop 4) else none
          else if c == '"' then eatStringRest (fuel + 1) rest
          else if c == '[' then
            match skipWs rest with
            | ']' :: rest2 => some rest2
            | l2 => eatElems fuel l2
          else if c == Char.ofNat 123 then
            match skipWs rest with
            | c2 :: rest2 => if c2 == Char.ofNat 125 then some rest2 else eatMembers fuel (c2 :: rest2)
            | [] => none
          else eatNumber (c :: rest)

/-- Consume the elements of a JSON array, including the closing bracket. -/
def eatElems : ℕ → List Char → Option (List Char)
  | 0, _ => none
  | fuel + 1, l =>
      match eatValue fuel (skipWs l) with
      | none => none
      | some rest =>
          match skipWs rest with
          | ']' :: rest2 => some rest2
          | ',' :: rest2 => eatElems fuel rest2
          | _ => none

/-- Consume the members of a JSON object, including the closing brace. -/
def eatMembers : ℕ → List Char → Option (List Char)
  | 0, _ => none
  | fuel + 1, l =>
      match skipWs l with
      | '"' :: rest =>
          match eatStringRest (fuel + 1) rest with
          | none => none
          | some rest2 =>
              match skipWs rest2 with
              | ':' :: rest3 =>
                  match eatValue fuel (skipWs rest3) with
                  | none => none
                  | some rest4 =>
                      match skipWs rest4 with
                      | c :: rest5 =>
                          if c == Char.ofNat 125 then some rest5
                          else if c == ',' then eatMembers fuel rest5
                          else none
                      | [] => none
              | _ => none
      | _ => none

end

/-- Does `JSON.parse` accept the string? (model) -/
def jsonParses (s : String) : Bool :=
  match eatValue (s.length + 1) (skipWs s.data) with
  | some rest => (skipWs rest).isEmpty
  | none => false

/-- The parse step of the two variant `generatePromptsWithLLM`
implementations (`part_002` lines 97–108 / `part_003` lines 87–98): strip
the fence, then `JSON.parse`; a parse failure is a thrown `SyntaxError`. -/
def promptParseVariant (content : String) : Except String Unit :=
  if jsonParses ⟨cleanLLMContent content.data⟩ then .ok ()
  else .error "SyntaxError"

/-- The parse step of `routers/music.ts` `generatePromptsWithLLM` (lines
68–69): `JSON.parse` on the raw content, no stripping. -/
def promptParseMusicTs (content : String) : Except String Unit :=
  if jsonParses content then .ok () else .error "SyntaxError"

/-- A fenced but otherwise well-formed LLM response, as produced by models
that ignore the "no markdown" instruction. -/
def fencedSample : String :=
  "```json\n\x7b\"universal\":\"u\",\"suno\":\"s\",\"udio\":\"d\",\"musicgen\":\"m\",\"beatoven\":\"b\"\x7d\n```"

/-! # Theorems -/

/-- C9: for every spectral-centroid and non-negative mid-band share input,
the vocal presence `min 1 (mid·0.8 + 0.2)` lies in `[0.2, 1]` — a lower
bound strictly stronger than the `[0,1]` the spec states. -/
theorem analyzeVocals_presence_bounds (samples : List ℚ) (c mid : ℚ)
    (h : 0 ≤ mid) :
    1/5 ≤ (analyzeVocals samples c mid).presence ∧
      (analyzeVocals samples c mid).presence ≤ 1 := by
  unfold analyzeVocals
  refine ⟨le_min (by norm_num) (by nlinarith), min_le_left _ _⟩

/-- Witness for `analyzeVocals_presence_bounds` at centroid 2500 and
mid share 1/2. -/
theorem analyzeVocals_presence_bounds_witness :
    0 ≤ (1/2 : ℚ) ∧
      (1/5 ≤ (analyzeVocals [] 2500 (1/2)).presence ∧
        (analyzeVocals [] 2500 (1/2)).presence ≤ 1) :=
  ⟨by norm_num, analyzeVocals_presence_bounds [] 2500 (1/2) (by norm_num)⟩

/-- C3 (counterexample to strictness): at `bpm = 125`, `rms = 0.75`,
`centroid = 3000`, the Rock profile also scores the full 100 points, so
EDM's score is not strictly higher than Rock's. -/
theorem scoreProfile_rock_ties_edm_at_125 :
    scoreProfile edmProfile 125 0.75 3000 = 100 ∧
    scoreProfile rockProfile 125 0.75 3000 = 100 := by
  norm_num [edmProfile, rockProfile, scoreProfile]

/-- C3 (amended): at `bpm = 125`, `rms = 0.75`, `centroid = 3000`, EDM
scores 100 and is selected with confidence 1; Pop scores only 70, while
Rock also scores 100 and loses the tie to EDM only because EDM is declared
earlier in the table. -/
theorem detectGenre_edm_selected_at_125 :
    (detectGenre 125 0.75 3000).detectedGenre = "EDM" ∧
    (detectGenre 125 0.75 3000).genreConfidence = 1 ∧
    scoreProfile edmProfile 125 0.75 3000 = 100 ∧
    scoreProfile popProfile 125 0.75 3000 = 70 ∧
    scoreProfile rockProfile 125 0.75 3000 = 100 := by
  norm_num [detectGenre, detectGenreLoop, GENRE_PROFILES, scoreProfile,
    edmProfile, rockProfile, popProfile, jazzProfile, balladProfile,
    hiphopProfile, classicalProfile]
  rfl

theorem maxScoreOf_nil (bpm e c : ℚ) : maxScoreOf bpm e c [] = 0 := rfl

theorem maxScoreOf_cons (bpm e c : ℚ) (kp : String × GenreProfile)
    (l : List (String × GenreProfile)) :
    maxScoreOf bpm e c (kp :: l) =
      max (scoreProfile kp.2 bpm e c) (maxScoreOf bpm e c l) := rfl

/-- Every table entry scores at most the table maximum. -/
theorem le_maxScoreOf (bpm e c : ℚ) (l : List (String × GenreProfile))
    (kp : String × GenreProfile) (h : kp ∈ l) :
    scoreProfile kp.2 bpm e c ≤ maxScoreOf bpm e c l := by
  induction l with
  | nil => cases h
  | cons hd tl ih =>
      rw [maxScoreOf_cons]
      rcases List.mem_cons.1 h with h1 | h2
      · subst h1; exact Nat.le_max_left _ _
      · exact le_trans (ih h2) (Nat.le_max_right _ _)

/-- The running best score of the selection loop ends at the maximum of the
initial score and the table maximum. -/
theorem detectGenreLoop_snd (bpm e c : ℚ) (l : List (String × GenreProfile))
    (b : String) (s : ℕ) :
    (detectGenreLoop bpm e c l (b, s)).2 = max s (maxScoreOf bpm e c l) := by
  induction l generalizing b s with
  | nil => simp [detectGenreLoop, maxScoreOf_nil]
  | cons hd tl ih =>
      obtain ⟨k, p⟩ := hd
      rw [maxScoreOf_cons]
      by_cases h : s < scoreProfile p bpm e c
      · simp only [detectGenreLoop, if_pos h]
        rw [ih]
        omega
      · simp only [detectGenreLoop, if_neg h]
        rw [ih]
        omega

/-- If no table entry beats the initial score, the loop keeps the initial
best key. -/
theorem detectGenreLoop_fst_of_le (bpm e c : ℚ)
    (l : List (String × GenreProfile)) (b : String) (s : ℕ)
    (h : maxScoreOf bpm e c l ≤ s) :
    (detectGenreLoop bpm e c l (b, s)).1 = b := by
  induction l generalizing b s with
  | nil => rfl
  | cons hd tl ih =>
      obtain ⟨k, p⟩ := hd
      rw [maxScoreOf_cons] at h
      dsimp only at h
      have h1 : ¬ s < scoreProfile p bpm e c := by omega
      simp only [detectGenreLoop, if_neg h1]
      exact ih _ _ (by omega)

/-- If some table entry beats the initial score, the loop returns the key of
the first entry attaining the table maximum. -/
theorem detectGenreLoop_fst_of_lt (bpm e c : ℚ)
    (l : List (String × GenreProfile)) (b : String) (s : ℕ)
    (h : s < maxScoreOf bpm e c l) :
    ∃ kp, l.find? (fun kp => scoreProfile kp.2 bpm e c = maxScoreOf bpm e c l)
        = some kp ∧
      (detectGenreLoop bpm e c l (b, s)).1 = kp.1 ∧
      scoreProfile kp.2 bpm e c = maxScoreOf bpm e c l := by
  induction l generalizing b s with
  | nil => simp [maxScoreOf_nil] at h
  | cons hd tl ih =>
      obtain ⟨k, p⟩ := hd
      rw [maxScoreOf_cons] at h ⊢
      dsimp only at h ⊢
      by_cases h1 : s < scoreProfile p bpm e c
      · by_cases h2 : scoreProfile p bpm e c < maxScoreOf bpm e c tl
        · have hmax : max (scoreProfile p bpm e c) (maxScoreOf bpm e c tl)
              = maxScoreOf bpm e c tl := by omega
          rw [hmax]
          obtain ⟨kp, hfind, hfst, hscore⟩ := ih k (scoreProfile p bpm e c) h2
          refine ⟨kp, ?_, ?_, hscore⟩
          · rw [List.find?_cons_of_neg _ (by simpa using Nat.ne_of_lt h2)]
            exact hfind
          · simp only [detectGenreLoop, if_pos h1]
            exact hfst
        · have hmax : max (scoreProfile p bpm e c) (maxScoreOf bpm e c tl)
              = scoreProfile p bpm e c := by omega
          rw [hmax]
          refine ⟨(k, p), ?_, ?_, rfl⟩
          · exact List.find?_cons_of_pos _ (by simp)
          · simp only [detectGenreLoop, if_pos h1]
            exact detectGenreLoop_fst_of_le bpm e c tl k _ (by omega)
      · have h3 : s < maxScoreOf bpm e c tl := by omega
        have hmax : max (scoreProfile p bpm e c) (maxScoreOf bpm e c tl)
            = maxScoreOf bpm e c tl := by omega
        rw [hmax]
        obtain ⟨kp, hfind, hfst, hscore⟩ := ih b s h3
        have hne : scoreProfile p bpm e c ≠ maxScoreOf bpm e c tl := by omega
        refine ⟨kp, ?_, ?_, hscore⟩
        · rw [List.find?_cons_of_neg _ (by simpa using hne)]
          exact hfind
        · simp only [detectGenreLoop, if_neg h1]
          exact hfst

/-- Every profile score is at most 100. -/
theorem scoreProfile_le_100 (p : GenreProfile) (bpm e c : ℚ) :
    scoreProfile p bpm e c ≤ 100 := by
  unfold scoreProfile
  split_ifs <;> norm_num

/-- Looking a member's key up in the table returns its profile. -/
theorem lookup_of_mem_profiles (kp : String × GenreProfile)
    (h : kp ∈ GENRE_PROFILES) : GENRE_PROFILES.lookup kp.1 = some kp.2 := by
  simp only [GENRE_PROFILES, List.mem_cons, List.not_mem_nil, or_false] at h
  rcases h with h | h | h | h | h | h | h <;> subst h <;> rfl

/-- C2 (amended): whenever some profile scores positively, the classifier
returns the first profile in table order attaining the maximum score
(`specFirstBest`, the spec's tie rule), with confidence exactly
`score/100`; when every profile scores 0, the loop never replaces its
initialization and the default "pop" entry is reported instead of the
first-declared profile (see the counterexample). -/
theorem detectGenre_selects_first_max (bpm e c : ℚ)
    (hpos : 0 < maxScoreOf bpm e c GENRE_PROFILES) :
    ∃ kp, specFirstBest bpm e c = some kp ∧
      (detectGenre bpm e c).detectedGenre = kp.2.name ∧
      (detectGenre bpm e c).genreConfidence = (scoreProfile kp.2 bpm e c : ℚ) / 100 ∧
      scoreProfile kp.2 bpm e c = maxScoreOf bpm e c GENRE_PROFILES ∧
      ∀ kq ∈ GENRE_PROFILES, scoreProfile kq.2 bpm e c ≤ scoreProfile kp.2 bpm e c := by
  obtain ⟨kp, hfind, hfst, hscore⟩ :=
    detectGenreLoop_fst_of_lt bpm e c GENRE_PROFILES "pop" 0 hpos
  have hmem : kp ∈ GENRE_PROFILES := List.mem_of_find?_eq_some hfind
  have hlookup := lookup_of_mem_profiles kp hmem
  have hsnd := detectGenreLoop_snd bpm e c GENRE_PROFILES "pop" 0
  refine ⟨kp, hfind, ?_, ?_, hscore, ?_⟩
  · unfold detectGenre
    simp only [hfst, hlookup, Option.getD_some]
  · unfold detectGenre
    simp only [hsnd, Nat.zero_max, ← hscore]
    have h100 := scoreProfile_le_100 kp.2 bpm e c
    have hle : (scoreProfile kp.2 bpm e c : ℚ) / 100 ≤ 1 := by
      rw [div_le_one (by norm_num)]
      exact_mod_cast h100
    simp only [min_eq_right hle]
  · intro kq hkq
    rw [hscore]
    exact le_maxScoreOf bpm e c GENRE_PROFILES kq hkq

/-- Witness for `detectGenre_selects_first_max` at `bpm = 100`,
`rms = 0.6`, `centroid = 2000` (several profiles score positively). -/
theorem detectGenre_selects_first_max_witness :
    0 < maxScoreOf 100 0.6 2000 GENRE_PROFILES ∧
      ∃ kp, specFirstBest 100 0.6 2000 = some kp ∧
        (detectGenre 100 0.6 2000).detectedGenre = kp.2.name ∧
        (detectGenre 100 0.6 2000).genreConfidence
          = (scoreProfile kp.2 100 0.6 2000 : ℚ) / 100 ∧
        scoreProfile kp.2 100 0.6 2000 = maxScoreOf 100 0.6 2000 GENRE_PROFILES ∧
        ∀ kq ∈ GENRE_PROFILES,
          scoreProfile kq.2 100 0.6 2000 ≤ scoreProfile kp.2 100 0.6 2000 := by
  have hpos : 0 < maxScoreOf 100 0.6 2000 GENRE_PROFILES := by
    norm_num [maxScoreOf, GENRE_PROFILES, scoreProfile, edmProfile, rockProfile,
      popProfile, jazzProfile, balladProfile, hiphopProfile, classicalProfile]
  exact ⟨hpos, detectGenre_selects_first_max 100 0.6 2000 hpos⟩

/-- C2 (counterexample): on an input every profile misses entirely
(`bpm = 30`, `rms = 0.1`, `centroid = 100`), all seven profiles tie at
score 0, yet the classifier returns the initialization value "Pop" — not
the first-declared profile, which is "Ballad". -/
theorem detectGenre_zero_tie_keeps_init_pop :
    (∀ kp ∈ GENRE_PROFILES, scoreProfile kp.2 30 0.1 100 = 0) ∧
    (detectGenre 30 0.1 100).detectedGenre = "Pop" ∧
    (GENRE_PROFILES.head?.map (fun kp => kp.2.name) = some "Ballad") := by
  norm_num [detectGenre, detectGenreLoop, GENRE_PROFILES, scoreProfile,
    edmProfile, rockProfile, popProfile, jazzProfile, balladProfile,
    hiphopProfile, classicalProfile]
  rfl

/-- C6 (counterexample): without a valid BPM tag, the filename
"wizballad" contains "ballad" yet yields 85, not 72 — the "hip"/"rap"/"wiz"
rule is checked first and wins. -/
theorem estimateBpm_wizballad_is_85 :
    estimateBpm { bpm := none, genre := none } 128 (some "wizballad") = 85 ∧
      (85 : ℤ) ≠ 72 := by
  constructor
  · rfl
  · decide

/-- C6 (amended): the keyword table is an ordered first-match chain.  With
no valid BPM tag: a filename containing "wiz" always yields 85 (it is in the
first rule); "ballad"/"slow" yield 72 only when no "hip"/"rap"/"wiz" is
present; "edm"/"dance" yield 128 only when no keyword of the two earlier
rules is present.  A tag in (40,300) is rounded and used. -/
theorem estimateBpm_keyword_rules (common : CommonTags) (bitrate : ℚ)
    (fileName : Option String) :
    (∀ b, common.bpm = some b → 40 < b → b < 300 →
      estimateBpm common bitrate fileName = jround b) ∧
    ((∀ b, common.bpm = some b → b ≤ 40 ∨ 300 ≤ b) →
      strHas (strLower (fileName.getD "")) "wiz" = true →
      estimateBpm common bitrate fileName = 85) ∧
    ((∀ b, common.bpm = some b → b ≤ 40 ∨ 300 ≤ b) →
      strHas (strLower (fileName.getD "")) "hip" = false →
      strHas (strLower (fileName.getD "")) "rap" = false →
      strHas (strLower (fileName.getD "")) "wiz" = false →
      (strHas (strLower (fileName.getD "")) "ballad" = true ∨
        strHas (strLower (fileName.getD "")) "slow" = true) →
      estimateBpm common bitrate fileName = 72) ∧
    ((∀ b, common.bpm = some b → b ≤ 40 ∨ 300 ≤ b) →
      strHas (strLower (fileName.getD "")) "hip" = false →
      strHas (strLower (fileName.getD "")) "rap" = false →
      strHas (strLower (fileName.getD "")) "wiz" = false →
      strHas (strLower (fileName.getD "")) "ballad" = false →
      strHas (strLower (fileName.getD "")) "slow" = false →
      (strHas (strLower (fileName.getD "")) "edm" = true ∨
        strHas (strLower (fileName.getD "")) "dance" = true) →
      estimateBpm common bitrate fileName = 128) := by
  refine ⟨?_, ?_, ?_, ?_⟩
  · intro b hb h40 h300
    simp [estimateBpm, hb, h40, h300]
  · intro htag hwiz
    have hfb : ∀ g n, strHas n "wiz" = true →
        estimateBpmFallback g n bitrate = 85 := by
      intro g n hw
      unfold estimateBpmFallback
      rw [hw]
      simp
    cases hb : common.bpm with
    | none => simp only [estimateBpm, hb]; exact hfb _ _ hwiz
    | some b =>
        have h40 := htag b hb
        have hnot : ¬ (40 < b ∧ b < 300) := by
          rintro ⟨ha, hc⟩
          rcases h40 with h | h <;> linarith
        simp only [estimateBpm, hb]
        rw [if_neg hnot]
        exact hfb _ _ hwiz
  · intro htag hhip hrap hwiz hbs
    have hfb : estimateBpmFallback
        (strLower (String.intercalate " " (common.genre.getD [])))
        (strLower (fileName.getD "")) bitrate = 72 := by
      unfold estimateBpmFallback
      rw [hhip, hrap, hwiz]
      rcases hbs with h | h <;> rw [h] <;> simp
    cases hb : common.bpm with
    | none => simpa only [estimateBpm, hb] using hfb
    | some b =>
        have h40 := htag b hb
        have hnot : ¬ (40 < b ∧ b < 300) := by
          rintro ⟨ha, hc⟩
          rcases h40 with h | h <;> linarith
        simp only [estimateBpm, hb]
        rw [if_neg hnot]
        exact hfb
  · intro htag hhip hrap hwiz hballad hslow hed
    have hfb : estimateBpmFallback
        (strLower (String.intercalate " " (common.genre.getD [])))
        (strLower (fileName.getD "")) bitrate = 128 := by
      unfold estimateBpmFallback
      rw [hhip, hrap, hwiz, hballad, hslow]
      rcases hed with h | h <;> rw [h] <;> simp
    cases hb : common.bpm with
    | none => simpa only [estimateBpm, hb] using hfb
    | some b =>
        have h40 := htag b hb
        have hnot : ¬ (40 < b ∧ b < 300) := by
          rintro ⟨ha, hc⟩
          rcases h40 with h | h <;> linarith
        simp only [estimateBpm, hb]
        rw [if_neg hnot]
        exact hfb

/-- Witness for `estimateBpm_keyword_rules`: the tag branch at a 120 BPM
tag and the "wiz" branch for an untagged "wiz_track.mp3". -/
theorem estimateBpm_keyword_rules_witness :
    estimateBpm { bpm := some 120, genre := none } 128 (some "wiz_track.mp3")
        = jround 120 ∧
    estimateBpm { bpm := none, genre := none } 128 (some "wiz_track.mp3")
        = 85 :=
  ⟨(estimateBpm_keyword_rules { bpm := some 120, genre := none } 128
      (some "wiz_track.mp3")).1 120 rfl (by norm_num) (by norm_num),
   (estimateBpm_keyword_rules { bpm := none, genre := none } 128
      (some "wiz_track.mp3")).2.1 (fun b hb => by cases hb) (by decide)⟩

/-- C5 (counterexample): a buffer whose metadata parse fails (corrupt /
unrecognized bytes) rejects `advancedAnalyzeAudio` at the unguarded
`mm.parseBuffer` call on line 351 — before `decodeToPCM` ever runs — and the
orchestrator's catch turns that into a terminal `error` job: the pipeline
does not continue on the decoder's last-resort default. -/
theorem corrupt_buffer_aborts_pipeline :
    advancedAnalyzeAudioPcm (.error "corrupt buffer") (.error ()) "audio/mpeg"
        = .error "corrupt buffer" ∧
    runBackgroundTask (.ok ())
        (advancedAnalyzeAudioPcm (.error "corrupt buffer") (.error ()) "audio/mpeg")
        (fun _ => .ok ())
      = { status := "error", errorMessage := some "corrupt buffer" } :=
  ⟨rfl, rfl⟩

/-- C5 (amended): the Decoder itself never propagates a failure — when both
external decoders fail, `decodeToPCM` returns the last-resort default of
44.1 kHz, 2 channels and 10 seconds of silence for every MIME type, and it
is a total function; but `advancedAnalyzeAudio` re-parses the metadata
outside any `try`, so a buffer whose metadata parse fails still aborts the
whole analysis stage with that error. -/
theorem decodeToPCM_fallback_and_unguarded_meta :
    (∀ mimeType, decodeToPCM (.error ()) (.error ()) mimeType = fallbackPCM) ∧
    fallbackPCM.samples = List.replicate 441000 0 ∧
    fallbackPCM.sampleRate = 44100 ∧
    fallbackPCM.channels = 2 ∧
    fallbackPCM.samples.length = 44100 * 10 ∧
    (∀ x ∈ fallbackPCM.samples, x = 0) ∧
    (∀ e wavResult mimeType,
      advancedAnalyzeAudioPcm (.error e) wavResult mimeType = .error e) := by
  have hlen : fallbackPCM.samples.length = 44100 * 10 := by
    show (List.replicate 441000 (0 : ℚ)).length = 44100 * 10
    rw [List.length_replicate]
  refine ⟨?_, rfl, rfl, rfl, hlen, ?_, ?_⟩
  · intro mimeType
    unfold decodeToPCM
    split <;> rfl
  · intro x hx
    exact List.eq_of_mem_replicate hx
  · intro e wavResult mimeType
    rfl

/-- `charsPre` drops a common prefix. -/
theorem charsPre_append_both (p q l : List Char) :
    charsPre (p ++ q) (p ++ l) = charsPre q l := by
  induction p with
  | nil => rfl
  | cons a as ih => simp [charsPre, ih]

/-- A list is a prefix of itself followed by anything. -/
theorem charsPre_append_self (p l : List Char) :
    charsPre p (p ++ l) = true := by
  have h := charsPre_append_both p [] l
  rw [List.append_nil] at h
  rw [h]
  rfl

/-- A leading backtick survives `dropWhile jsWs`. -/
theorem dropWhile_jsWs_backtick (l : List Char) :
    List.dropWhile jsWs ('`' :: l) = '`' :: l := by
  rw [List.dropWhile_cons]
  have h : jsWs '`' = false := by decide
  simp [h]

/-- `trim` leaves a backtick-delimited string unchanged. -/
theorem trimChars_backticks (mid : List Char) :
    trimChars ('`' :: (mid ++ ['`'])) = '`' :: (mid ++ ['`']) := by
  unfold trimChars
  rw [dropWhile_jsWs_backtick]
  have h1 : ('`' :: (mid ++ ['`'])).reverse = '`' :: (mid.reverse ++ ['`']) := by
    simp
  rw [h1, dropWhile_jsWs_backtick, ← h1, List.reverse_reverse]

/-- Removing the trailing fence of `s ++ \x60\x60\x60` gives back `s`. -/
theorem replaceTrailingFence_append (s : List Char) :
    replaceTrailingFence (s ++ fenceChars) = s := by
  unfold replaceTrailingFence
  have h1 : (s ++ fenceChars).reverse = fenceChars ++ s.reverse := by
    simp [fenceChars]
  rw [h1, if_pos (by rw [charsPre_append_self])]
  rw [List.drop_left' (by rfl : (fenceChars : List Char).length = 3)]
  simp [h1]

/-- C8 (counterexample): a code-fenced but otherwise well-formed response is
valid JSON only after stripping; the `routers/music.ts` implementation
parses the raw content (no stripping, lines 68–69), so it throws on this
response, while the variant implementations accept it. -/
theorem musicTs_fenced_response_fails :
    jsonParses fencedSample = false ∧
    jsonParses ⟨cleanLLMContent fencedSample.data⟩ = true ∧
    promptParseMusicTs fencedSample = .error "SyntaxError" ∧
    promptParseVariant fencedSample = .ok () := by
  have h1 : jsonParses fencedSample = false := by decide
  have h2 : jsonParses ⟨cleanLLMContent fencedSample.data⟩ = true := by decide
  refine ⟨h1, h2, ?_, ?_⟩
  · unfold promptParseMusicTs
    rw [h1]
    rfl
  · unfold promptParseVariant
    rw [h2]
    rfl

/-- C8 (amended): the two variant `generatePromptsWithLLM` implementations
strip a leading ```` ```json ```` or ```` ``` ```` with its trailing fence
before parsing (first two conjuncts), and any content that is not valid
JSON after stripping makes the background task record a terminal `error`
job (third conjunct); the `routers/music.ts` implementation parses the raw
content with no stripping (last conjunct). -/
theorem promptStage_fence_strip_and_error :
    (∀ s : List Char,
      cleanLLMContent (jsonFenceChars ++ s ++ fenceChars) = trimChars s) ∧
    (∀ s : List Char, charsPre ['j', 's', 'o', 'n'] (s ++ fenceChars) = false →
      cleanLLMContent (fenceChars ++ s ++ fenceChars) = trimChars s) ∧
    (∀ (content : String) (r : PCMResult),
      jsonParses ⟨cleanLLMContent content.data⟩ = false →
      runBackgroundTask (.ok ()) (.ok r) (fun _ => promptParseVariant content)
        = { status := "error", errorMessage := some "SyntaxError" }) ∧
    (∀ content : String,
      promptParseMusicTs content
        = if jsonParses content then .ok () else .error "SyntaxError") := by
  refine ⟨?_, ?_, ?_, fun _ => rfl⟩
  · intro s
    have hshape : jsonFenceChars ++ s ++ fenceChars
        = '`' :: ((['`', '`', 'j', 's', 'o', 'n'] ++ s ++ ['`', '`']) ++ ['`']) := by
      simp [jsonFenceChars, fenceChars]
    have htrim : trimChars (jsonFenceChars ++ s ++ fenceChars)
        = jsonFenceChars ++ s ++ fenceChars := by
      rw [hshape]; exact trimChars_backticks _
    have hc : charsPre jsonFenceChars (jsonFenceChars ++ s ++ fenceChars) = true := by
      rw [List.append_assoc]; exact charsPre_append_self _ _
    have hdrop : (jsonFenceChars ++ s ++ fenceChars).drop 7 = s ++ fenceChars := by
      rw [List.append_assoc]
      exact List.drop_left' (by rfl)
    unfold cleanLLMContent
    dsimp only
    rw [htrim, if_pos hc, hdrop, replaceTrailingFence_append]
  · intro s hjson
    have hshape : fenceChars ++ s ++ fenceChars
        = '`' :: ((['`', '`'] ++ s ++ ['`', '`']) ++ ['`']) := by
      simp [fenceChars]
    have hjfence : (jsonFenceChars : List Char)
        = fenceChars ++ ['j', 's', 'o', 'n'] := rfl
    have htrim : trimChars (fenceChars ++ s ++ fenceChars)
        = fenceChars ++ s ++ fenceChars := by
      rw [hshape]; exact trimChars_backticks _
    have hc1 : charsPre jsonFenceChars (fenceChars ++ s ++ fenceChars) = false := by
      rw [List.append_assoc, hjfence, charsPre_append_both]
      exact hjson
    have hc2 : charsPre fenceChars (fenceChars ++ s ++ fenceChars) = true := by
      rw [List.append_assoc]; exact charsPre_append_self _ _
    have hdrop : (fenceChars ++ s ++ fenceChars).drop 3 = s ++ fenceChars := by
      rw [List.append_assoc]
      exact List.drop_left' (by rfl)
    unfold cleanLLMContent
    dsimp only
    rw [htrim, if_neg (by rw [hc1]; exact Bool.false_ne_true), if_pos hc2,
      hdrop, replaceTrailingFence_append]
  · intro content r h
    unfold runBackgroundTask promptParseVariant
    rw [h]
    rfl

/-- Witness for `promptStage_fence_strip_and_error` on concrete strings. -/
theorem promptStage_fence_strip_and_error_witness :
    cleanLLMContent (jsonFenceChars ++ " a ".data ++ fenceChars)
        = trimChars " a ".data ∧
    (charsPre ['j', 's', 'o', 'n'] ("x".data ++ fenceChars) = false ∧
      cleanLLMContent (fenceChars ++ "x".data ++ fenceChars)
        = trimChars "x".data) ∧
    (jsonParses ⟨cleanLLMContent "oops".data⟩ = false ∧
      runBackgroundTask (.ok ()) (.ok fallbackPCM)
          (fun _ => promptParseVariant "oops")
        = { status := "error", errorMessage := some "SyntaxError" }) :=
  ⟨promptStage_fence_strip_and_error.1 " a ".data,
   ⟨by decide, promptStage_fence_strip_and_error.2.1 "x".data (by decide)⟩,
   ⟨by decide,
    promptStage_fence_strip_and_error.2.2.1 "oops" fallbackPCM (by decide)⟩⟩

/-- One step of the band-splitting loop. -/
theorem bandFold_cons (sr : ℚ) (mag : ℕ → ℚ) (i : ℕ) (l : List ℕ)
    (acc : ℚ × ℚ × ℚ) :
    bandFold sr mag (i :: l) acc =
      bandFold sr mag l
        (if freqOf sr i < 250 then (acc.1 + mag i, acc.2.1, acc.2.2)
         else if freqOf sr i < 4000 then (acc.1, acc.2.1 + mag i, acc.2.2)
         else (acc.1, acc.2.1, acc.2.2 + mag i)) := rfl

/-- The three band accumulators always sum to the accumulated magnitudes:
each bin lands in exactly one band. -/
theorem bandFold_sum (sr : ℚ) (mag : ℕ → ℚ) (l : List ℕ) (acc : ℚ × ℚ × ℚ) :
    (bandFold sr mag l acc).1 + (bandFold sr mag l acc).2.1
        + (bandFold sr mag l acc).2.2
      = acc.1 + acc.2.1 + acc.2.2 + (l.map mag).sum := by
  induction l generalizing acc with
  | nil => simp [bandFold]
  | cons i rest ih =>
      rw [bandFold_cons, ih]
      by_cases h1 : freqOf sr i < 250
      · simp only [if_pos h1, List.map_cons, List.sum_cons]
        ring
      · by_cases h2 : freqOf sr i < 4000
        · simp only [if_neg h1, if_pos h2, List.map_cons, List.sum_cons]
          ring
        · simp only [if_neg h1, if_neg h2, List.map_cons, List.sum_cons]
          ring

/-- Non-negative magnitudes keep all three band accumulators non-negative. -/
theorem bandFold_nonneg (sr : ℚ) (mag : ℕ → ℚ) (l : List ℕ) (acc : ℚ × ℚ × ℚ)
    (hmag : ∀ i ∈ l, 0 ≤ mag i) (h1 : 0 ≤ acc.1) (h2 : 0 ≤ acc.2.1)
    (h3 : 0 ≤ acc.2.2) :
    0 ≤ (bandFold sr mag l acc).1 ∧ 0 ≤ (bandFold sr mag l acc).2.1 ∧
      0 ≤ (bandFold sr mag l acc).2.2 := by
  induction l generalizing acc with
  | nil => exact ⟨h1, h2, h3⟩
  | cons i rest ih =>
      have hi : 0 ≤ mag i := hmag i (List.mem_cons_self i rest)
      have hrest : ∀ j ∈ rest, 0 ≤ mag j :=
        fun j hj => hmag j (List.mem_cons_of_mem i hj)
      rw [bandFold_cons]
      by_cases hf1 : freqOf sr i < 250
      · simp only [if_pos hf1]
        exact ih _ hrest (add_nonneg h1 hi) h2 h3
      · by_cases hf2 : freqOf sr i < 4000
        · simp only [if_neg hf1, if_pos hf2]
          exact ih _ hrest h1 (add_nonneg h2 hi) h3
        · simp only [if_neg hf1, if_neg hf2]
          exact ih _ hrest h1 h2 (add_nonneg h3 hi)

/-- Magnitudes are non-negative when `rsqrt` preserves non-negativity. -/
theorem magOf_nonneg (transform : List ℚ → List (ℚ × ℚ)) (rsqrt : ℚ → ℚ)
    (samples : List ℚ) (hr : ∀ q, 0 ≤ q → 0 ≤ rsqrt q) (i : ℕ) :
    0 ≤ magOf transform rsqrt samples i := by
  unfold magOf
  dsimp only
  exact hr _ (add_nonneg (mul_self_nonneg _) (mul_self_nonneg _))

/-- The band energies sum exactly to the total magnitude. -/
theorem bandEnergies_sum (transform : List ℚ → List (ℚ × ℚ)) (rsqrt : ℚ → ℚ)
    (samples : List ℚ) (sr : ℚ) :
    (bandEnergiesOf transform rsqrt samples sr).1
        + (bandEnergiesOf transform rsqrt samples sr).2.1
        + (bandEnergiesOf transform rsqrt samples sr).2.2
      = totalMagnitudeOf transform rsqrt samples := by
  unfold bandEnergiesOf totalMagnitudeOf
  rw [bandFold_sum]
  norm_num

/-- All three band energies are non-negative. -/
theorem bandEnergies_nonneg (transform : List ℚ → List (ℚ × ℚ)) (rsqrt : ℚ → ℚ)
    (samples : List ℚ) (sr : ℚ) (hr : ∀ q, 0 ≤ q → 0 ≤ rsqrt q) :
    0 ≤ (bandEnergiesOf transform rsqrt samples sr).1 ∧
      0 ≤ (bandEnergiesOf transform rsqrt samples sr).2.1 ∧
      0 ≤ (bandEnergiesOf transform rsqrt samples sr).2.2 := by
  unfold bandEnergiesOf
  exact bandFold_nonneg _ _ _ _
    (fun i _ => magOf_nonneg transform rsqrt samples hr i)
    le_rfl le_rfl le_rfl

/-- The projection equations of `analyzeSpectrum` (zeta-reduced lets). -/
theorem analyzeSpectrum_bass_eq (transform : List ℚ → List (ℚ × ℚ))
    (rsqrt : ℚ → ℚ) (samples : List ℚ) (sr : ℚ) :
    (analyzeSpectrum transform rsqrt samples sr).bass
      = (bandEnergiesOf transform rsqrt samples sr).1 /
        (if (bandEnergiesOf transform rsqrt samples sr).1
              + (bandEnergiesOf transform rsqrt samples sr).2.1
              + (bandEnergiesOf transform rsqrt samples sr).2.2 = 0 then 1
         else (bandEnergiesOf transform rsqrt samples sr).1
              + (bandEnergiesOf transform rsqrt samples sr).2.1
              + (bandEnergiesOf transform rsqrt samples sr).2.2) := rfl

theorem analyzeSpectrum_mid_eq (transform : List ℚ → List (ℚ × ℚ))
    (rsqrt : ℚ → ℚ) (samples : List ℚ) (sr : ℚ) :
    (analyzeSpectrum transform rsqrt samples sr).mid
      = (bandEnergiesOf transform rsqrt samples sr).2.1 /
        (if (bandEnergiesOf transform rsqrt samples sr).1
              + (bandEnergiesOf transform rsqrt samples sr).2.1
              + (bandEnergiesOf transform rsqrt samples sr).2.2 = 0 then 1
         else (bandEnergiesOf transform rsqrt samples sr).1
              + (bandEnergiesOf transform rsqrt samples sr).2.1
              + (bandEnergiesOf transform rsqrt samples sr).2.2) := rfl

theorem analyzeSpectrum_treble_eq (transform : List ℚ → List (ℚ × ℚ))
    (rsqrt : ℚ → ℚ) (samples : List ℚ) (sr : ℚ) :
    (analyzeSpectrum transform rsqrt samples sr).treble
      = (bandEnergiesOf transform rsqrt samples sr).2.2 /
        (if (bandEnergiesOf transform rsqrt samples sr).1
              + (bandEnergiesOf transform rsqrt samples sr).2.1
              + (bandEnergiesOf transform rsqrt samples sr).2.2 = 0 then 1
         else (bandEnergiesOf transform rsqrt samples sr).1
              + (bandEnergiesOf transform rsqrt samples sr).2.1
              + (bandEnergiesOf transform rsqrt samples sr).2.2) := rfl

theorem jround_2000 : jround 2000 = 2000 := by
  unfold jround
  rw [Int.floor_eq_iff]
  norm_num

theorem jround_1000 : jround 1000 = 1000 := by
  unfold jround
  rw [Int.floor_eq_iff]
  norm_num

/-- With a zero-total magnitude window, `analyzeSpectrum` takes all three
guards: centroid 2000, spread 1000, and — because `totalEnergy || 1`
substitutes a denominator of 1 over zero band energies — ratios 0, 0, 0. -/
theorem spectrum_zero_total_eval (transform : List ℚ → List (ℚ × ℚ))
    (rsqrt : ℚ → ℚ) (samples : List ℚ) (sr : ℚ)
    (hr : ∀ q, 0 ≤ q → 0 ≤ rsqrt q)
    (h0 : totalMagnitudeOf transform rsqrt samples = 0) :
    analyzeSpectrum transform rsqrt samples sr
      = { centroid := 2000, spread := 1000, bass := 0, mid := 0, treble := 0 } := by
  obtain ⟨hb1, hb2, hb3⟩ := bandEnergies_nonneg transform rsqrt samples sr hr
  have hsum := bandEnergies_sum transform rsqrt samples sr
  rw [h0] at hsum
  have hz1 : (bandEnergiesOf transform rsqrt samples sr).1 = 0 := by linarith
  have hz2 : (bandEnergiesOf transform rsqrt samples sr).2.1 = 0 := by linarith
  have hz3 : (bandEnergiesOf transform rsqrt samples sr).2.2 = 0 := by linarith
  unfold analyzeSpectrum
  dsimp only
  rw [h0]
  simp only [lt_irrefl, if_neg, if_false, hz1, hz2, hz3]
  norm_num [jround_2000, jround_1000]

/-- The total magnitude of the empty signal under the zero transform (the
FFT of the all-zero window is identically zero, so the constant-empty
transform agrees with `fft.js` on this input). -/
theorem totalMagnitude_zero_transform :
    totalMagnitudeOf (fun _ => []) (fun q => q) [] = 0 := by
  unfold totalMagnitudeOf
  apply List.sum_eq_zero
  intro x hx
  rcases List.mem_map.1 hx with ⟨i, _, rfl⟩
  norm_num [magOf, List.getD]

/-- C4 (amended): on a window of zero total magnitude (for example the empty
signal), `analyzeSpectrum` returns centroid 2000 and spread 1000, but the
band ratios are 0, 0, 0 — there is no catch-all returning
`{bass: 0.3, mid: 0.5, treble: 0.2}` anywhere in the function. -/
theorem analyzeSpectrum_zero_total_guard (transform : List ℚ → List (ℚ × ℚ))
    (rsqrt : ℚ → ℚ) (samples : List ℚ) (sr : ℚ)
    (hr : ∀ q, 0 ≤ q → 0 ≤ rsqrt q)
    (h0 : totalMagnitudeOf transform rsqrt samples = 0) :
    analyzeSpectrum transform rsqrt samples sr
      = { centroid := 2000, spread := 1000, bass := 0, mid := 0, treble := 0 } :=
  spectrum_zero_total_eval transform rsqrt samples sr hr h0

/-- Witness for `analyzeSpectrum_zero_total_guard` on the empty signal. -/
theorem analyzeSpectrum_zero_total_guard_witness :
    (∀ q : ℚ, 0 ≤ q → 0 ≤ (fun q => q) q) ∧
    totalMagnitudeOf (fun _ => []) (fun q => q) [] = 0 ∧
    analyzeSpectrum (fun _ => []) (fun q => q) [] 44100
      = { centroid := 2000, spread := 1000, bass := 0, mid := 0, treble := 0 } :=
  ⟨fun _ h => h, totalMagnitude_zero_transform,
   analyzeSpectrum_zero_total_guard (fun _ => []) (fun q => q) [] 44100
     (fun _ h => h) totalMagnitude_zero_transform⟩

/-- C4 (counterexample): on the empty signal the spectral analyzer does not
return the spec's fixed fallback ratios — the bass share is 0, not 0.3. -/
theorem analyzeSpectrum_empty_not_fixed_fallback :
    (analyzeSpectrum (fun _ => []) (fun q => q) [] 44100).bass = 0 ∧
    (analyzeSpectrum (fun _ => []) (fun q => q) [] 44100).mid = 0 ∧
    (analyzeSpectrum (fun _ => []) (fun q => q) [] 44100).treble = 0 ∧
    ((0.3 : ℚ) ≠ 0 ∧ (0.5 : ℚ) ≠ 0 ∧ (0.2 : ℚ) ≠ 0) := by
  have h := spectrum_zero_total_eval (fun _ => []) (fun q => q) [] 44100
    (fun _ h => h) totalMagnitude_zero_transform
  rw [h]
  norm_num

/-- C1 (amended): every band ratio lies in `[0, 1]`; whenever the window's
total magnitude is nonzero the three ratios sum exactly to 1, but when it is
zero the `totalEnergy || 1` guard makes all three ratios 0, so their sum is
0 — not 1 as the claim states for that case. -/
theorem analyzeSpectrum_ratio_invariant (transform : List ℚ → List (ℚ × ℚ))
    (rsqrt : ℚ → ℚ) (samples : List ℚ) (sr : ℚ)
    (hr : ∀ q, 0 ≤ q → 0 ≤ rsqrt q) :
    (0 ≤ (analyzeSpectrum transform rsqrt samples sr).bass ∧
      (analyzeSpectrum transform rsqrt samples sr).bass ≤ 1) ∧
    (0 ≤ (analyzeSpectrum transform rsqrt samples sr).mid ∧
      (analyzeSpectrum transform rsqrt samples sr).mid ≤ 1) ∧
    (0 ≤ (analyzeSpectrum transform rsqrt samples sr).treble ∧
      (analyzeSpectrum transform rsqrt samples sr).treble ≤ 1) ∧
    (totalMagnitudeOf transform rsqrt samples ≠ 0 →
      (analyzeSpectrum transform rsqrt samples sr).bass
        + (analyzeSpectrum transform rsqrt samples sr).mid
        + (analyzeSpectrum transform rsqrt samples sr).treble = 1) ∧
    (totalMagnitudeOf transform rsqrt samples = 0 →
      (analyzeSpectrum transform rsqrt samples sr).bass
        + (analyzeSpectrum transform rsqrt samples sr).mid
        + (analyzeSpectrum transform rsqrt samples sr).treble = 0) := by
  obtain ⟨hb1, hb2, hb3⟩ := bandEnergies_nonneg transform rsqrt samples sr hr
  have hsum := bandEnergies_sum transform rsqrt samples sr
  rw [analyzeSpectrum_bass_eq, analyzeSpectrum_mid_eq, analyzeSpectrum_treble_eq]
  by_cases h0 : totalMagnitudeOf transform rsqrt samples = 0
  · have hz : (bandEnergiesOf transform rsqrt samples sr).1
        + (bandEnergiesOf transform rsqrt samples sr).2.1
        + (bandEnergiesOf transform rsqrt samples sr).2.2 = 0 := by
      rw [hsum, h0]
    have hz1 : (bandEnergiesOf transform rsqrt samples sr).1 = 0 := by linarith
    have hz2 : (bandEnergiesOf transform rsqrt samples sr).2.1 = 0 := by linarith
    have hz3 : (bandEnergiesOf transform rsqrt samples sr).2.2 = 0 := by linarith
    simp only [if_pos hz, hz1, hz2, hz3]
    norm_num
    exact h0
  · have hz : (bandEnergiesOf transform rsqrt samples sr).1
        + (bandEnergiesOf transform rsqrt samples sr).2.1
        + (bandEnergiesOf transform rsqrt samples sr).2.2 ≠ 0 := by
      rw [hsum]; exact h0
    have hpos : 0 < (bandEnergiesOf transform rsqrt samples sr).1
        + (bandEnergiesOf transform rsqrt samples sr).2.1
        + (bandEnergiesOf transform rsqrt samples sr).2.2 :=
      lt_of_le_of_ne (by linarith) (Ne.symm hz)
    simp only [if_neg hz]
    refine ⟨⟨div_nonneg hb1 hpos.le, ?_⟩, ⟨div_nonneg hb2 hpos.le, ?_⟩,
      ⟨div_nonneg hb3 hpos.le, ?_⟩, ?_, fun hcon => absurd hcon h0⟩
    · rw [div_le_one hpos]; linarith
    · rw [div_le_one hpos]; linarith
    · rw [div_le_one hpos]; linarith
    · intro _
      rw [div_add_div_same, div_add_div_same, div_self hz]

/-- Witness for `analyzeSpectrum_ratio_invariant` with the identity as
non-negative square root and the pointwise real transform. -/
theorem analyzeSpectrum_ratio_invariant_witness :
    (∀ q : ℚ, 0 ≤ q → 0 ≤ (fun q => q) q) ∧
    ((0 ≤ (analyzeSpectrum (fun l => l.map (fun x => (x, 0))) (fun q => q)
            [1] 44100).bass ∧
      (analyzeSpectrum (fun l => l.map (fun x => (x, 0))) (fun q => q)
            [1] 44100).bass ≤ 1) ∧
    (0 ≤ (analyzeSpectrum (fun l => l.map (fun x => (x, 0))) (fun q => q)
            [1] 44100).mid ∧
      (analyzeSpectrum (fun l => l.map (fun x => (x, 0))) (fun q => q)
            [1] 44100).mid ≤ 1) ∧
    (0 ≤ (analyzeSpectrum (fun l => l.map (fun x => (x, 0))) (fun q => q)
            [1] 44100).treble ∧
      (analyzeSpectrum (fun l => l.map (fun x => (x, 0))) (fun q => q)
            [1] 44100).treble ≤ 1) ∧
    (totalMagnitudeOf (fun l => l.map (fun x => (x, 0))) (fun q => q) [1] ≠ 0 →
      (analyzeSpectrum (fun l => l.map (fun x => (x, 0))) (fun q => q)
            [1] 44100).bass
        + (analyzeSpectrum (fun l => l.map (fun x => (x, 0))) (fun q => q)
            [1] 44100).mid
        + (analyzeSpectrum (fun l => l.map (fun x => (x, 0))) (fun q => q)
            [1] 44100).treble = 1) ∧
    (totalMagnitudeOf (fun l => l.map (fun x => (x, 0))) (fun q => q) [1] = 0 →
      (analyzeSpectrum (fun l => l.map (fun x => (x, 0))) (fun q => q)
            [1] 44100).bass
        + (analyzeSpectrum (fun l => l.map (fun x => (x, 0))) (fun q => q)
            [1] 44100).mid
        + (analyzeSpectrum (fun l => l.map (fun x => (x, 0))) (fun q => q)
            [1] 44100).treble = 0)) :=
  ⟨fun _ h => h,
   analyzeSpectrum_ratio_invariant (fun l => l.map (fun x => (x, 0)))
     (fun q => q) [1] 44100 (fun _ h => h)⟩

/-- C1 (counterexample): on the all-zero window (empty signal, zero
transform = the true FFT of silence) the three ratios sum to 0, which is
not within 1e-6 of 1 — the "including total = 0" part of the claim fails. -/
theorem analyzeSpectrum_zero_window_sum_not_one :
    (analyzeSpectrum (fun _ => []) (fun q => q) [] 44100).bass
      + (analyzeSpectrum (fun _ => []) (fun q => q) [] 44100).mid
      + (analyzeSpectrum (fun _ => []) (fun q => q) [] 44100).treble = 0 ∧
    ¬ (|(analyzeSpectrum (fun _ => []) (fun q => q) [] 44100).bass
        + (analyzeSpectrum (fun _ => []) (fun q => q) [] 44100).mid
        + (analyzeSpectrum (fun _ => []) (fun q => q) [] 44100).treble - 1|
      ≤ 1 / 1000000) := by
  have h := spectrum_zero_total_eval (fun _ => []) (fun q => q) [] 44100
    (fun _ h => h) totalMagnitude_zero_transform
  rw [h]
  norm_num

/-- Folding `Math.max` from a finite seed stays finite and computes the
list fold of `max`. -/
theorem foldl_jmax_fin (l : List ℚ) (a : ℚ) :
    l.foldl (fun m e => jmax m (.fin e)) (.fin a) = .fin (l.foldl max a) := by
  induction l generalizing a with
  | nil => rfl
  | cons x xs ih =>
      rw [List.foldl_cons, List.foldl_cons]
      have h : jmax (.fin a) (.fin x) = .fin (max a x) := rfl
      rw [h]
      exact ih (max a x)

theorem le_foldl_max (l : List ℚ) (a : ℚ) : a ≤ l.foldl max a := by
  induction l generalizing a with
  | nil => exact le_refl a
  | cons x xs ih => exact le_trans (le_max_left a x) (ih (max a x))

theorem mem_le_foldl_max (l : List ℚ) (a x : ℚ) (hx : x ∈ l) :
    x ≤ l.foldl max a := by
  induction l generalizing a with
  | nil => cases hx
  | cons y ys ih =>
      rcases List.mem_cons.1 hx with h | h
      · subst h; exact le_trans (le_max_right a x) (le_foldl_max ys (max a x))
      · exact ih _ h

/-- `Math.max(...energies)` on a nonempty list is its finite maximum. -/
theorem spreadMax_cons (x : ℚ) (xs : List ℚ) :
    spreadMax (x :: xs) = .fin (xs.foldl max x) := by
  unfold spreadMax
  rw [List.foldl_cons]
  exact foldl_jmax_fin xs x

/-- Sum bounded by length times an upper bound. -/
theorem sum_le_length_mul_max (l : List ℚ) (M : ℚ) (h : ∀ x ∈ l, x ≤ M) :
    l.sum ≤ (l.length : ℚ) * M := by
  induction l with
  | nil => simp
  | cons x xs ih =>
      simp only [List.sum_cons, List.length_cons]
      have hx := h x (List.mem_cons_self x xs)
      have hxs := ih (fun y hy => h y (List.mem_cons_of_mem x hy))
      push_cast
      linarith

/-- Projection equation: the drum-intensity field of the advanced rhythm
analyzer (the outer `Math.min(1, ·)` of the return plus the one on line
253). -/
theorem analyzeRhythmAdv_drumIntensity_eq (rsqrt : ℚ → ℚ) (samples : List ℚ)
    (sr bpm : ℚ) :
    (analyzeRhythmAdv rsqrt samples sr bpm).drumIntensity
      = jmin (.fin 1) (jmin (.fin 1)
          (if 0 < (beatEnergiesOf samples ((beatFrameSizeOf sr bpm).toNat)).length
           then
             jdiv (spreadMax (beatEnergiesOf samples ((beatFrameSizeOf sr bpm).toNat)))
               (jdiv (.fin (beatEnergiesOf samples ((beatFrameSizeOf sr bpm).toNat)).sum)
                 (.fin ((beatEnergiesOf samples ((beatFrameSizeOf sr bpm).toNat)).length : ℚ)))
           else .fin 0.5)) := rfl

/-- Projection equation: the percussion label of the advanced rhythm
analyzer. -/
theorem analyzeRhythmAdv_percussionChar_eq (rsqrt : ℚ → ℚ) (samples : List ℚ)
    (sr bpm : ℚ) :
    (analyzeRhythmAdv rsqrt samples sr bpm).percussionChar
      = (let di := jmin (.fin 1)
          (if 0 < (beatEnergiesOf samples ((beatFrameSizeOf sr bpm).toNat)).length
           then
             jdiv (spreadMax (beatEnergiesOf samples ((beatFrameSizeOf sr bpm).toNat)))
               (jdiv (.fin (beatEnergiesOf samples ((beatFrameSizeOf sr bpm).toNat)).sum)
                 (.fin ((beatEnergiesOf samples ((beatFrameSizeOf sr bpm).toNat)).length : ℚ)))
           else .fin 0.5)
         if jgt di (.fin 0.8) then "punchy"
         else if jgt di (.fin 0.6) then "crisp"
         else if jlt di (.fin 0.3) then "muffled"
         else "moderate") := rfl

/-- C10: with at least one whole beat frame and a strictly positive mean
frame energy, the maximum frame energy is at least the mean, so
`min(1, max/mean)` is exactly 1 and the percussion label is "punchy". -/
theorem analyzeRhythmAdv_full_intensity (rsqrt : ℚ → ℚ) (samples : List ℚ)
    (sr bpm : ℚ)
    (h1 : beatEnergiesOf samples ((beatFrameSizeOf sr bpm).toNat) ≠ [])
    (h2 : 0 < (beatEnergiesOf samples ((beatFrameSizeOf sr bpm).toNat)).sum) :
    (analyzeRhythmAdv rsqrt samples sr bpm).drumIntensity = .fin 1 ∧
    (analyzeRhythmAdv rsqrt samples sr bpm).percussionChar = "punchy" := by
  obtain ⟨x, xs, hxl⟩ :=
    List.exists_cons_of_ne_nil h1
  have hlen : 0 < (beatEnergiesOf samples ((beatFrameSizeOf sr bpm).toNat)).length := by
    rw [hxl]; simp
  have hnQ : (0:ℚ) <
      ((beatEnergiesOf samples ((beatFrameSizeOf sr bpm).toNat)).length : ℚ) := by
    exact_mod_cast hlen
  have havg : jdiv (.fin (beatEnergiesOf samples ((beatFrameSizeOf sr bpm).toNat)).sum)
        (.fin ((beatEnergiesOf samples ((beatFrameSizeOf sr bpm).toNat)).length : ℚ))
      = .fin ((beatEnergiesOf samples ((beatFrameSizeOf sr bpm).toNat)).sum /
          ((beatEnergiesOf samples ((beatFrameSizeOf sr bpm).toNat)).length : ℚ)) := by
    simp [jdiv, ne_of_gt hnQ]
  have hsm : spreadMax (beatEnergiesOf samples ((beatFrameSizeOf sr bpm).toNat))
      = .fin (xs.foldl max x) := by
    rw [hxl]; exact spreadMax_cons x xs
  have hub : ∀ y ∈ beatEnergiesOf samples ((beatFrameSizeOf sr bpm).toNat),
      y ≤ xs.foldl max x := by
    intro y hy
    rw [hxl] at hy
    rcases List.mem_cons.1 hy with h | h
    · subst h; exact le_foldl_max xs y
    · exact mem_le_foldl_max xs x y h
  have hA : 0 < (beatEnergiesOf samples ((beatFrameSizeOf sr bpm).toNat)).sum /
      ((beatEnergiesOf samples ((beatFrameSizeOf sr bpm).toNat)).length : ℚ) :=
    div_pos h2 hnQ
  have hMA : (beatEnergiesOf samples ((beatFrameSizeOf sr bpm).toNat)).sum /
        ((beatEnergiesOf samples ((beatFrameSizeOf sr bpm).toNat)).length : ℚ)
      ≤ xs.foldl max x := by
    rw [div_le_iff₀ hnQ]
    calc (beatEnergiesOf samples ((beatFrameSizeOf sr bpm).toNat)).sum
        ≤ ((beatEnergiesOf samples ((beatFrameSizeOf sr bpm).toNat)).length : ℚ)
            * (xs.foldl max x) :=
          sum_le_length_mul_max _ _ hub
      _ = (xs.foldl max x) *
            ((beatEnergiesOf samples ((beatFrameSizeOf sr bpm).toNat)).length : ℚ) :=
          mul_comm _ _
  have h1le : (1:ℚ) ≤ (xs.foldl max x) /
      ((beatEnergiesOf samples ((beatFrameSizeOf sr bpm).toNat)).sum /
        ((beatEnergiesOf samples ((beatFrameSizeOf sr bpm).toNat)).length : ℚ)) := by
    rw [le_div_iff₀ hA]
    linarith
  have hdivMA : jdiv (.fin (xs.foldl max x))
        (.fin ((beatEnergiesOf samples ((beatFrameSizeOf sr bpm).toNat)).sum /
          ((beatEnergiesOf samples ((beatFrameSizeOf sr bpm).toNat)).length : ℚ)))
      = .fin ((xs.foldl max x) /
          ((beatEnergiesOf samples ((beatFrameSizeOf sr bpm).toNat)).sum /
            ((beatEnergiesOf samples ((beatFrameSizeOf sr bpm).toNat)).length : ℚ))) := by
    simp [jdiv, ne_of_gt hA]
  have hdi : jmin (.fin 1)
      (if 0 < (beatEnergiesOf samples ((beatFrameSizeOf sr bpm).toNat)).length
       then
         jdiv (spreadMax (beatEnergiesOf samples ((beatFrameSizeOf sr bpm).toNat)))
           (jdiv (.fin (beatEnergiesOf samples ((beatFrameSizeOf sr bpm).toNat)).sum)
             (.fin ((beatEnergiesOf samples ((beatFrameSizeOf sr bpm).toNat)).length : ℚ)))
       else .fin 0.5) = .fin 1 := by
    rw [if_pos hlen, havg, hsm, hdivMA]
    simp only [jmin]
    rw [min_eq_left h1le]
  constructor
  · rw [analyzeRhythmAdv_drumIntensity_eq, hdi]
    simp [jmin]
  · rw [analyzeRhythmAdv_percussionChar_eq]
    dsimp only
    rw [hdi]
    norm_num [jgt, jlt]

/-- Witness for `analyzeRhythmAdv_full_intensity`: four unit samples at one
sample per second and 30 BPM give two whole 2-sample beat frames of mean
energy 1. -/
theorem analyzeRhythmAdv_full_intensity_witness :
    (beatEnergiesOf [1, 1, 1, 1] ((beatFrameSizeOf 1 30).toNat) ≠ [] ∧
      0 < (beatEnergiesOf [1, 1, 1, 1] ((beatFrameSizeOf 1 30).toNat)).sum) ∧
    ((analyzeRhythmAdv (fun q => q) [1, 1, 1, 1] 1 30).drumIntensity = .fin 1 ∧
      (analyzeRhythmAdv (fun q => q) [1, 1, 1, 1] 1 30).percussionChar
        = "punchy") := by
  have hbfs : (beatFrameSizeOf 1 30).toNat = 2 := by
    norm_num [beatFrameSizeOf, jround]
    rfl
  have he : beatEnergiesOf [1, 1, 1, 1] ((beatFrameSizeOf 1 30).toNat)
      = [1, 1] := by
    rw [hbfs]
    norm_num [beatEnergiesOf, List.range_succ]
  have h1 : beatEnergiesOf [1, 1, 1, 1] ((beatFrameSizeOf 1 30).toNat) ≠ [] := by
    rw [he]; simp
  have h2 : 0 < (beatEnergiesOf [1, 1, 1, 1] ((beatFrameSizeOf 1 30).toNat)).sum := by
    rw [he]; norm_num
  exact ⟨⟨h1, h2⟩,
    analyzeRhythmAdv_full_intensity (fun q => q) [1, 1, 1, 1] 1 30 h1 h2⟩

/-- C7 (evaluation at the failing input): with fewer than one whole beat
frame the advanced analyzer's mean is `0/0 = NaN` (no `0.1` default exists
in `advancedAudioAnalysis.ts`), so the regularity is `NaN` — not a number in
`[0,1]` — while the drum intensity does default to `0.5` ("moderate"
label).  In the `musicAnalysisModules.ts` variant the mean does default to
`0.1`, but `Math.max` of no frames is `-Infinity`, so its percussion
intensity is `-Infinity` rather than any `0.5` default. -/
theorem analyzeRhythm_no_frames (rsqrt : ℚ → ℚ) (samples : List ℚ)
    (sr bpm : ℚ)
    (h : beatEnergiesOf samples ((beatFrameSizeOf sr bpm).toNat) = []) :
    (analyzeRhythmAdv rsqrt samples sr bpm).regularity = .nan ∧
    (analyzeRhythmAdv rsqrt samples sr bpm).drumIntensity = .fin 0.5 ∧
    (analyzeRhythmAdv rsqrt samples sr bpm).percussionChar = "moderate" ∧
    (analyzeRhythmMods samples sr bpm).percussionIntensity = .ninf := by
  unfold analyzeRhythmAdv analyzeRhythmMods
  dsimp only
  rw [h]
  norm_num [jdiv, jsqrt, jsub, jadd, jneg, jmax, jmin, jgt, jlt, jsOr, jfalsy,
    spreadMax]

/-- Witness for `analyzeRhythm_no_frames`: the empty signal at 44.1 kHz and
90 BPM has zero whole beat frames. -/
theorem analyzeRhythm_no_frames_witness :
    beatEnergiesOf [] ((beatFrameSizeOf 44100 90).toNat) = [] ∧
    ((analyzeRhythmAdv (fun q => q) [] 44100 90).regularity = .nan ∧
      (analyzeRhythmAdv (fun q => q) [] 44100 90).drumIntensity = .fin 0.5 ∧
      (analyzeRhythmAdv (fun q => q) [] 44100 90).percussionChar = "moderate" ∧
      (analyzeRhythmMods [] 44100 90).percussionIntensity = .ninf) :=
  ⟨by simp [beatEnergiesOf],
   analyzeRhythm_no_frames (fun q => q) [] 44100 90 (by simp [beatEnergiesOf])⟩

end MusicAnalysis
